import Mathlib

/-!
Verification of the minprof minimal profiler library (src/minprof.hh).

The development shallowly embeds the data model of the library:

* Counter : wrapper around an atomic unsigned 64-bit integer; modelled as a
  natural number, with every mutating operation reducing modulo 2^64 exactly
  where the C++ unsigned arithmetic wraps.
* Timer : a Counter storing nanosecond counts; the chrono duration_cast is
  modelled as exact integer scaling with truncating division followed by the
  signed-to-unsigned conversion modulo 2^64.
* StaticCounterRegistry : the two parallel vectors m_names (nullable C strings,
  modelled as Option String) and m_instances (pointers to counters, modelled as
  the pointed-to Counter values at observation time).
* Stopwatch / Scopewatch / Section : stateful timing helpers.  A Stopwatch
  holds a reference to its backing Timer; references are modelled by indexing
  into a world of timers given as a function from indices to Counters.  Time
  points of the high_resolution_clock are modelled as nanosecond counts, with
  the default-constructed (epoch) time point being 0, matching the running
  test used by the code (m_start.time_since_epoch().count() > 0).
-/

namespace Minprof

/-- Modulus of the unsigned 64-bit arithmetic used by Counter. -/
def U64_MOD : Nat := 2 ^ 64

/-- Counter (minprof.hh, class Counter): an unsigned 64-bit accumulator.
The atomic m_value is modelled as a natural number kept below U64_MOD by
the operations. -/
structure Counter where
  m_value : Nat
deriving DecidableEq

namespace Counter

/-- Counter::value(): read the current value. -/
def value (c : Counter) : Nat := c.m_value

/-- Counter::operator++(int): m_value.fetch_add(1).  Returns the value before
the add; the stored value wraps modulo 2^64 like the C++ unsigned type. -/
def postInc (c : Counter) : Nat × Counter :=
  (c.m_value, ⟨(c.m_value + 1) % U64_MOD⟩)

/-- Counter::operator++(): ++m_value, returning the counter itself. -/
def preInc (c : Counter) : Counter :=
  ⟨(c.m_value + 1) % U64_MOD⟩

/-- Counter::operator+=(value_type): m_value += amount, wrapping modulo 2^64. -/
def addAmount (c : Counter) (amount : Nat) : Counter :=
  ⟨(c.m_value + amount) % U64_MOD⟩

/-- Counter::operator=(const Counter&): m_value = copy, which stores the value
of the source counter (read through operator value_type) into this counter.
The first argument is the assigned-to counter; its prior state is discarded. -/
def copyAssign (c src : Counter) : Counter :=
  ⟨src.m_value⟩

end Counter

/-! Timer (minprof.hh, class Timer) is a Counter whose stored value is a count
of nanoseconds.  Its native duration type has an unsigned 64-bit representation
with period std::nano. -/

/-- std::chrono::duration_cast into Timer::duration (unsigned 64-bit
nanoseconds): the computation runs in the common representation, the common
type of the unsigned 64-bit target representation, the source representation
and intmax_t, which is the unsigned 64-bit type.  The source count is first
converted to unsigned, wrapping modulo 2^64, then multiplied by num and
divided by den in unsigned 64-bit arithmetic (num and den form the positive
ratio of the source period to std::nano; the multiplication wraps modulo
2^64 and the division is unsigned floor division).  The library skips the
multiplication when num is 1 and the division when den is 1, which does not
change the resulting value. -/
def durationCast (count num den : Int) : Nat :=
  ((count % (2 ^ 64 : Int)).toNat * num.toNat % 2 ^ 64) / den.toNat

namespace Timer

/-- Timer::operator+=(duration): delegates to Counter::operator+= with the
nanosecond count of the native duration. -/
def addDuration (t : Counter) (durCount : Nat) : Counter :=
  Counter.addAmount t durCount

/-- Timer::operator+= for a foreign duration type with representation value
count and period num/den relative to nanoseconds: performs the duration_cast
into the native duration (computed in the unsigned 64-bit common type, see
durationCast), then delegates to the native operator+=.  The implicit chrono
conversion taken by the non-template overload for compatible duration types
performs the same computation. -/
def addDurationOf (t : Counter) (count num den : Int) : Counter :=
  addDuration t (durationCast count num den)

end Timer

/-- StaticCounterRegistry (minprof.hh): the singleton state consists of two
parallel vectors, the registered names (nullable C strings) and the pointers
to the registered counters, here given by the pointed-to Counter values. -/
structure StaticCounterRegistry where
  m_names : List (Option String)
  m_instances : List Counter

namespace StaticCounterRegistry

/-- The freshly constructed registry singleton: both vectors empty. -/
def empty : StaticCounterRegistry := ⟨[], []⟩

/-- StaticCounterRegistry::register_counter: push the name data and the
counter instance onto the two vectors, returning the new size minus one. -/
def register_counter (r : StaticCounterRegistry) (name : String)
    (c : Counter) : StaticCounterRegistry × Nat :=
  (⟨r.m_names ++ [some name], r.m_instances ++ [c]⟩,
    (r.m_instances.length + 1) - 1)

/-- StaticCounterRegistry::count(): the size of m_instances, cast to the
unsigned 32-bit type and hence truncated modulo 2^32. -/
def count (r : StaticCounterRegistry) : Nat :=
  r.m_instances.length % 2 ^ 32

/-- Helper for find: the loop over m_names starting at index i, comparing each
entry with the requested name (strcmp equality on the C strings). -/
def findFrom : List (Option String) → String → Nat → Option Nat
  | [], _, _ => none
  | n :: rest, name, i =>
      if n = some name then some i else findFrom rest name (i + 1)

/-- StaticCounterRegistry::find(name, idx): linear scan of m_names for an
exact match; returns the first matching index, or none when absent (the C++
version writes the index through the out parameter and returns a Bool). -/
def find (r : StaticCounterRegistry) (name : String) : Option Nat :=
  findFrom r.m_names name 0

/-- StaticCounterRegistry::get_name(idx): nullptr when idx is at or beyond the
size of m_names, otherwise the stored (possibly null) name pointer. -/
def get_name (r : StaticCounterRegistry) (idx : Nat) : Option String :=
  if r.m_names.length ≤ idx then none else r.m_names.getD idx none

/-- StaticCounterRegistry::get_counter(idx): nullptr when idx is at or beyond
the size of m_instances, otherwise the stored counter pointer (registered
pointers are never null, so an in-range result is the stored Counter). -/
def get_counter (r : StaticCounterRegistry) (idx : Nat) : Option Counter :=
  if r.m_instances.length ≤ idx then none
  else some (r.m_instances.getD idx ⟨0⟩)

/-- One iteration of the dump loop: writes the name (or the fallback
counter_idx for a null name), a comma and a space, the base-10 value of the
pointed-to counter, and std::endl. -/
def dumpLine (r : StaticCounterRegistry) (idx : Nat) : String :=
  (match r.m_names.getD idx none with
   | some n => n
   | none => "counter_" ++ toString idx) ++ ", "
    ++ toString (r.m_instances.getD idx ⟨0⟩).value ++ "\n"

/-- StaticCounterRegistry::dump(std::ostream&): the text written to the sink,
one dumpLine per index from 0 up to the size of m_instances. -/
def dump (r : StaticCounterRegistry) : String :=
  String.join ((List.range r.m_instances.length).map (dumpLine r))

/-- Registry states reachable through registration: both vectors grow in
lock-step and every stored name pointer is non-null. -/
def WellFormed (r : StaticCounterRegistry) : Prop :=
  r.m_names.length = r.m_instances.length ∧ ∀ n ∈ r.m_names, n ≠ none

end StaticCounterRegistry

/-- Stopwatch (minprof.hh): m_par is the reference to the backing Timer,
modelled as an index into a world of timers; m_start is the time point of the
last start() or split().  Instants of Stopwatch::Clock
(std::chrono::high_resolution_clock) are modelled as nanosecond counts since
the clock epoch; the default-constructed time point has count 0, and the code
asserts that Clock::now() is always positive and uses a positive m_start as
its running test, so m_start 0 means the stopwatch is idle. -/
structure Stopwatch where
  m_par : Nat
  m_start : Nat

/-- World of timers a Stopwatch may reference: each index denotes one Timer
object and the function yields its current state. -/
abbrev TimerWorld := Nat → Counter

namespace Stopwatch

/-- Stopwatch::Stopwatch(Timer&, bool): binds the backing timer; when started
is true the constructor body calls start(), recording the construction-time
clock reading now as m_start. -/
def construct (par : Nat) (started : Bool) (now : Nat) : Stopwatch :=
  if started then ⟨par, now⟩ else ⟨par, 0⟩

/-- Stopwatch::start(): record the current clock reading in m_start. -/
def start (sw : Stopwatch) (now : Nat) : Stopwatch :=
  ⟨sw.m_par, now⟩

/-- Stopwatch::split(): read the clock, form the elapsed native duration
(end minus m_start, a signed quantity), duration_cast it to the unsigned
64-bit nanosecond duration, retire it into the backing timer with
operator+=, and continue measuring from the new reading.  Returns the new
timer world, the new stopwatch state, and the returned duration count. -/
def split (ts : TimerWorld) (sw : Stopwatch) (now : Nat) :
    TimerWorld × Stopwatch × Nat :=
  let dur := (((now : Int) - (sw.m_start : Int)) % (2 ^ 64 : Int)).toNat
  (Function.update ts sw.m_par (Timer.addDuration (ts sw.m_par) dur),
    ⟨sw.m_par, now⟩, dur)

/-- Stopwatch::stop(): split, then reset m_start to the default-constructed
time point, leaving the stopwatch idle. -/
def stop (ts : TimerWorld) (sw : Stopwatch) (now : Nat) :
    TimerWorld × Stopwatch × Nat :=
  let r := split ts sw now
  (r.1, ⟨r.2.1.m_par, 0⟩, r.2.2)

/-- Stopwatch::operator=(const Stopwatch&): m_par = copy.m_par assigns
through the Timer reference (Timer::operator=, hence Counter::operator=,
a value snapshot into the destination timer object); the reference itself
cannot be rebound.  m_start is copied directly. -/
def copyAssign (ts : TimerWorld) (a b : Stopwatch) :
    TimerWorld × Stopwatch :=
  (Function.update ts a.m_par (Counter.copyAssign (ts a.m_par) (ts b.m_par)),
    ⟨a.m_par, b.m_start⟩)

end Stopwatch

/-- Events observable during construction of the scoped helpers: the start of
the backing timer measurement and the increment of the invocation counter. -/
inductive ScopeEvent
  | timerStart
  | counterInc
deriving DecidableEq

namespace Scopewatch

/-- Scopewatch::Scopewatch(Timer&): constructs the Stopwatch base with
started = true, so the clock is read and the measurement starts during
construction. -/
def construct (par : Nat) (now : Nat) : Stopwatch :=
  Stopwatch.construct par true now

/-- Scopewatch::~Scopewatch(): calls stop(), retiring the elapsed time into
the backing timer exactly once when the scope is exited. -/
def destruct (ts : TimerWorld) (sw : Stopwatch) (now : Nat) :
    TimerWorld × Stopwatch × Nat :=
  Stopwatch.stop ts sw now

/-- Whole lifetime of a Scopewatch over the timer at index par: construction
at clock reading t0, destruction at clock reading t1; yields the timer world
after the destructor has retired the elapsed duration. -/
def lifetime (ts : TimerWorld) (par : Nat) (t0 t1 : Nat) : TimerWorld :=
  (destruct ts (construct par t0) t1).1

/-- Construction-time event trace of a Scopewatch: the Stopwatch base is
constructed with started = true, which starts the timer measurement. -/
def ctorTrace : List ScopeEvent := [ScopeEvent.timerStart]

end Scopewatch

namespace Section

/-- Section::Section(Counter&, Timer&): the effect on the bound invocation
counter is one pre-increment, performed by the constructor body. -/
def constructCounter (c : Counter) : Counter := Counter.preInc c

/-- Repeated Section constructions against the same bound counter: the
counter state after n constructions. -/
def constructN : Counter → Nat → Counter
  | c, 0 => c
  | c, n + 1 => constructN (constructCounter c) n

/-- Construction-time event trace of a Section: the Scopewatch base class
initializer runs first (starting the timer), and only then does the
constructor body increment the invocation counter. -/
def ctorTrace : List ScopeEvent := Scopewatch.ctorTrace ++ [ScopeEvent.counterInc]

end Section

/-! Helper lemmas. -/

/-- Registration preserves well-formedness of the registry state. -/
theorem StaticCounterRegistry.register_wf (r : StaticCounterRegistry)
    (name : String) (c : Counter) (h : r.WellFormed) :
    (r.register_counter name c).1.WellFormed := by
  obtain ⟨hlen, hnn⟩ := h
  refine ⟨?_, ?_⟩
  · simp [register_counter, hlen]
  · intro n hn
    simp only [register_counter, List.mem_append, List.mem_singleton] at hn
    rcases hn with hn | hn
    · exact hnn n hn
    · simp [hn]

/-- The scan helper returns none exactly when the name is absent from the
remaining list. -/
theorem StaticCounterRegistry.findFrom_eq_none (l : List (Option String))
    (name : String) (i : Nat) (h : some name ∉ l) :
    StaticCounterRegistry.findFrom l name i = none := by
  induction l generalizing i with
  | nil => rfl
  | cons hd tl ih =>
      simp only [List.mem_cons, not_or] at h
      rw [findFrom, if_neg (fun hc => h.1 hc.symm)]
      exact ih (i + 1) h.2

/-- On a duplicate-free list, the scan starting at offset i finds the unique
occurrence of the name at position j and returns i + j. -/
theorem StaticCounterRegistry.findFrom_eq_of_nodup (l : List (Option String))
    (name : String) (i j : Nat) (hnd : l.Nodup) (hj : j < l.length)
    (hget : l.getD j none = some name) :
    StaticCounterRegistry.findFrom l name i = some (i + j) := by
  induction l generalizing i j with
  | nil => exact absurd hj (by simp)
  | cons hd tl ih =>
      cases j with
      | zero =>
          simp only [List.getD_cons_zero] at hget
          simp [findFrom, hget]
      | succ j =>
          have hne : hd ≠ some name := by
            intro hc
            have hj2 : j < tl.length := by
              simpa using Nat.lt_of_succ_lt_succ hj
            have hget2 : tl.getD j none = some name := by
              simpa using hget
            have hmem : some name ∈ tl := by
              rw [List.getD_eq_getElem?_getD, List.getElem?_eq_getElem hj2]
                at hget2
              simp only [Option.getD_some] at hget2
              exact hget2 ▸ List.getElem_mem hj2
            exact (List.nodup_cons.mp hnd).1 (hc ▸ hmem)
          simp only [findFrom, if_neg hne]
          have := ih (i + 1) j (List.nodup_cons.mp hnd).2
            (by simpa using Nat.lt_of_succ_lt_succ hj)
            (by simpa using hget)
          rw [this]
          congr 1
          omega

/-- Characterization of Stopwatch::split when the clock is monotone across
the measurement and the elapsed nanoseconds fit the 64-bit range: the timer
at m_par accumulates the elapsed duration modulo 2^64, the new m_start is the
measurement point, and the elapsed duration is returned. -/
theorem Stopwatch.split_spec (ts : TimerWorld) (sw : Stopwatch)
    (now : Nat) (hmono : sw.m_start ≤ now)
    (hwrap : now - sw.m_start < U64_MOD) :
    Stopwatch.split ts sw now =
      (Function.update ts sw.m_par
          ⟨((ts sw.m_par).m_value + (now - sw.m_start)) % U64_MOD⟩,
        ⟨sw.m_par, now⟩, now - sw.m_start) := by
  have hdur : (((now : Int) - (sw.m_start : Int)) % (2 ^ 64 : Int)).toNat
      = now - sw.m_start := by
    simp only [U64_MOD] at hwrap
    omega
  unfold Stopwatch.split Timer.addDuration Counter.addAmount
  rw [hdur]

/-- Characterization of Stopwatch::stop under the same conditions: like
split, but the stopwatch is left idle (m_start is the epoch point 0). -/
theorem Stopwatch.stop_spec (ts : TimerWorld) (sw : Stopwatch)
    (now : Nat) (hmono : sw.m_start ≤ now)
    (hwrap : now - sw.m_start < U64_MOD) :
    Stopwatch.stop ts sw now =
      (Function.update ts sw.m_par
          ⟨((ts sw.m_par).m_value + (now - sw.m_start)) % U64_MOD⟩,
        ⟨sw.m_par, 0⟩, now - sw.m_start) := by
  unfold Stopwatch.stop
  rw [Stopwatch.split_spec ts sw now hmono hwrap]

end Minprof

namespace Minprof

/-- Claim C7: Counter post-increment (operator++(int), fetch_add(1)) returns
the value held before the add and stores that value plus one, in the unsigned
64-bit arithmetic of the counter; it is a total operation (never fails). -/
theorem counter_post_increment (c : Counter) :
    (Counter.postInc c).1 = c.value ∧
    (Counter.postInc c).2.value = (c.value + 1) % U64_MOD :=
  ⟨rfl, rfl⟩

/-- Claim C2 counterexample: the public copy-assignment operator of Counter is
an operation that leaves the stored value strictly below its prior value:
assigning a counter holding 3 into a counter holding 5 stores 3 < 5. -/
theorem counter_assign_decreases :
    (Counter.copyAssign ⟨5⟩ ⟨3⟩).value < (⟨5⟩ : Counter).value := by
  decide

/-- Claim C2 (amended): the increment and add operations of Counter are
non-decreasing absent 64-bit wrap-around, but the public copy-assignment
operator sets the stored value to the source value, which may be smaller. -/
theorem counter_monotone_ops (c src : Counter) (amount : Nat)
    (h1 : c.value + 1 < U64_MOD) (h2 : c.value + amount < U64_MOD) :
    c.value ≤ (Counter.preInc c).value ∧
    c.value ≤ (Counter.postInc c).2.value ∧
    c.value ≤ (Counter.addAmount c amount).value ∧
    (Counter.copyAssign c src).value = src.value := by
  refine ⟨?_, ?_, ?_, rfl⟩ <;>
    simp only [Counter.preInc, Counter.postInc, Counter.addAmount,
      Counter.value, U64_MOD] at * <;>
    omega

/-- Claim C2 witness: the amended statement at concrete counters. -/
theorem counter_monotone_ops_witness :
    (5 : Nat) ≤ (Counter.preInc ⟨5⟩).value ∧
    (5 : Nat) ≤ (Counter.postInc ⟨5⟩).2.value ∧
    (5 : Nat) ≤ (Counter.addAmount ⟨5⟩ 7).value ∧
    (Counter.copyAssign ⟨5⟩ ⟨2⟩).value = (⟨2⟩ : Counter).value := by
  have h := counter_monotone_ops ⟨5⟩ ⟨2⟩ 7 (by decide) (by decide)
  exact h

/-- Claim C8 counterexample: for a sub-nanosecond period the release
behaviour is not wrap-around modulo 2^64 of the mathematically converted
count.  Adding the duration of minus 3 picoseconds (count -3, ratio 1/1000)
to a Timer holding 0 stores (2^64 - 3) / 1000 = 18446744073709551, because
the count is converted to unsigned before the division, whereas the
mathematical conversion truncates -3/1000 to 0, whose wrap modulo 2^64 is 0. -/
theorem timer_add_subnano_negative_not_wrap :
    (Timer.addDurationOf ⟨0⟩ (-3) 1 1000).value = 18446744073709551 ∧
    ((((⟨0⟩ : Counter).value : Int) + ((-3 : Int) * 1).tdiv 1000)
        % (2 ^ 64 : Int)).toNat = 0 ∧
    ((Timer.addDurationOf ⟨0⟩ (-3) 1 1000).value : Int)
      ≠ (((⟨0⟩ : Counter).value : Int) + ((-3 : Int) * 1).tdiv 1000)
          % (2 ^ 64 : Int) := by
  decide

/-- Claim C8 (amended): adding a duration to a Timer converts it to
nanoseconds with duration_cast computed in the unsigned 64-bit common
representation — the source count is converted to unsigned first, wrapping
modulo 2^64, then multiplied by num and divided by den in unsigned
arithmetic — and accumulates the result modulo 2^64.  For durations whose
period is a whole multiple of a nanosecond (den = 1, all standard units from
nanoseconds up) this equals wrap-around modulo 2^64 of the mathematically
converted count, including for negative durations; non-negative durations
whose scaled product stays below 2^64 are accumulated exactly.  (The
converting constructor asserts positivity in debug builds; operator+=
performs no check.) -/
theorem timer_add_duration_unsigned (t : Counter) (count num den : Int)
    (hnum : 0 < num) (hden : 0 < den) :
    (Timer.addDurationOf t count num den).value
      = (t.value + durationCast count num den) % U64_MOD ∧
    (den = 1 →
      ((Timer.addDurationOf t count num den).value : Int)
        = ((t.value : Int) + count * num) % (2 ^ 64 : Int)) ∧
    (∀ cN : Nat, count = (cN : Int) → cN * num.toNat < 2 ^ 64 →
      (Timer.addDurationOf t count num den).value
        = (t.value + cN * num.toNat / den.toNat) % U64_MOD) := by
  refine ⟨rfl, ?_, ?_⟩
  · intro hden1
    subst hden1
    simp only [Timer.addDurationOf, Timer.addDuration, Counter.addAmount,
      Counter.value, durationCast, Int.toNat_one, Nat.div_one, U64_MOD]
    have hc : (((count % (2 ^ 64 : Int)).toNat : Int)) = count % 2 ^ 64 :=
      Int.toNat_of_nonneg (Int.emod_nonneg count (by norm_num))
    have hn : ((num.toNat : Int)) = num := Int.toNat_of_nonneg hnum.le
    simp only [Int.natCast_mod, Nat.cast_add, Nat.cast_mul, Nat.cast_pow,
      Nat.cast_ofNat, hc, hn]
    rw [show (count % (2 ^ 64 : Int) * num) % 2 ^ 64 = (count * num) % 2 ^ 64
      from by rw [Int.mul_emod, Int.emod_emod_of_dvd _ dvd_rfl, ← Int.mul_emod]]
    rw [Int.add_emod, Int.emod_emod_of_dvd _ dvd_rfl, ← Int.add_emod]
  · intro cN hcN hlt
    subst hcN
    have hnum1 : 1 ≤ num.toNat := by omega
    have hcle : cN ≤ cN * num.toNat := by
      calc cN = cN * 1 := (Nat.mul_one cN).symm
        _ ≤ cN * num.toNat := Nat.mul_le_mul_left cN hnum1
    have hclt : cN < 2 ^ 64 := lt_of_le_of_lt hcle hlt
    simp only [Timer.addDurationOf, Timer.addDuration, Counter.addAmount,
      Counter.value, durationCast, U64_MOD]
    have h1 : (((cN : Int)) % (2 ^ 64 : Int)).toNat = cN := by omega
    rw [h1, Nat.mod_eq_of_lt hlt]

/-- Claim C8 witness: adding 3 microseconds (count 3, ratio 1000/1) to a
Timer holding 10 accumulates exactly 3000 nanoseconds, matching the wrap
formula for a whole-nanosecond-multiple period. -/
theorem timer_add_duration_unsigned_witness :
    (Timer.addDurationOf ⟨10⟩ 3 1000 1).value
      = (10 + durationCast 3 1000 1) % U64_MOD ∧
    ((Timer.addDurationOf ⟨10⟩ 3 1000 1).value : Int)
      = ((10 : Int) + 3 * 1000) % (2 ^ 64 : Int) ∧
    (Timer.addDurationOf ⟨10⟩ 3 1000 1).value
      = (10 + 3 * 1000 / 1) % U64_MOD := by
  have h := timer_add_duration_unsigned ⟨10⟩ 3 1000 1 (by decide) (by decide)
  exact ⟨h.1, h.2.1 rfl, h.2.2 3 rfl (by decide)⟩

/-- Claim C1 counterexample: in the Section constructor the Scopewatch base
class initializer runs before the constructor body, so the timer is started
strictly before the invocation counter is incremented — the increment does
not happen before the timer is started (each event occurs exactly once in
the construction trace). -/
theorem section_starts_timer_before_increment :
    Section.ctorTrace.indexOf ScopeEvent.timerStart
      < Section.ctorTrace.indexOf ScopeEvent.counterInc ∧
    Section.ctorTrace.count ScopeEvent.counterInc = 1 ∧
    Section.ctorTrace.count ScopeEvent.timerStart = 1 := by
  decide

/-- Claim C1 (amended): constructing a Section increments its bound
invocation Counter by exactly 1 per construction, the increment happening at
construction immediately after the timer is started (the Scopewatch base is
initialized before the constructor body runs); for n constructions the
counter increases by exactly n, absent 64-bit wrap-around. -/
theorem section_increments_once (c : Counter) (n : Nat)
    (h : c.value + n < U64_MOD) :
    Section.ctorTrace.count ScopeEvent.counterInc = 1 ∧
    Section.ctorTrace.indexOf ScopeEvent.timerStart
      < Section.ctorTrace.indexOf ScopeEvent.counterInc ∧
    (Section.constructN c n).value = c.value + n := by
  have hmain : ∀ m (d : Counter), d.value + m < U64_MOD →
      (Section.constructN d m).value = d.value + m := by
    intro m
    induction m with
    | zero =>
        intro d hd
        simp [Section.constructN]
    | succ k ih =>
        intro d hd
        have hlt : d.value + 1 < U64_MOD := by omega
        have hpre : (Section.constructCounter d).value = d.value + 1 := by
          simp only [Section.constructCounter, Counter.preInc, Counter.value,
            U64_MOD] at hlt ⊢
          omega
        rw [show Section.constructN d (k + 1)
            = Section.constructN (Section.constructCounter d) k from rfl]
        rw [ih (Section.constructCounter d) (by rw [hpre]; omega), hpre]
        omega
  exact ⟨by decide, by decide, hmain n c h⟩

/-- Claim C1 witness: three Section constructions on a fresh counter leave
it at 3, with the increment placed after the timer start in the trace. -/
theorem section_increments_once_witness :
    Section.ctorTrace.count ScopeEvent.counterInc = 1 ∧
    Section.ctorTrace.indexOf ScopeEvent.timerStart
      < Section.ctorTrace.indexOf ScopeEvent.counterInc ∧
    (Section.constructN ⟨0⟩ 3).value = 0 + 3 := by
  have h := section_increments_once ⟨0⟩ 3 (by decide)
  exact h

/-- Claim C5: find performs an exact, case-sensitive linear scan of the
name list: on a registry whose registered names are pairwise distinct, every
registered name is found at its registration index, and every name never
registered yields a not-found result. -/
theorem registry_find_correct (r : StaticCounterRegistry) (name : String)
    (hnd : r.m_names.Nodup) :
    (∀ j, j < r.m_names.length → r.m_names.getD j none = some name →
      StaticCounterRegistry.find r name = some j) ∧
    (some name ∉ r.m_names → StaticCounterRegistry.find r name = none) := by
  constructor
  · intro j hj hget
    have h := StaticCounterRegistry.findFrom_eq_of_nodup r.m_names name 0 j
      hnd hj hget
    simpa [StaticCounterRegistry.find] using h
  · intro h
    exact StaticCounterRegistry.findFrom_eq_none r.m_names name 0 h

/-- Claim C5 witness: on a two-entry registry, the second name is found at
index 1 and an unregistered name is not found. -/
theorem registry_find_correct_witness :
    StaticCounterRegistry.find ⟨[some "alpha", some "beta"], [⟨1⟩, ⟨2⟩]⟩
      "beta" = some 1 ∧
    StaticCounterRegistry.find ⟨[some "alpha", some "beta"], [⟨1⟩, ⟨2⟩]⟩
      "gamma" = none := by
  have h1 := (registry_find_correct
    ⟨[some "alpha", some "beta"], [⟨1⟩, ⟨2⟩]⟩ "beta" (by decide)).1
    1 (by decide) (by decide)
  have h2 := (registry_find_correct
    ⟨[some "alpha", some "beta"], [⟨1⟩, ⟨2⟩]⟩ "gamma" (by decide)).2
    (by decide)
  exact ⟨h1, h2⟩

/-- Claim C6: get_name and get_counter are bounds-checked: for an index at or
beyond count() they return the null sentinel, and for an in-range index they
return the stored name and the stored counter (the registry size being below
2^32, so that the unsigned cast in count() does not truncate). -/
theorem registry_get_bounds (r : StaticCounterRegistry) (idx : Nat)
    (hlen : r.m_names.length = r.m_instances.length)
    (hsmall : r.m_instances.length < 2 ^ 32) :
    (StaticCounterRegistry.count r ≤ idx →
      StaticCounterRegistry.get_name r idx = none ∧
      StaticCounterRegistry.get_counter r idx = none) ∧
    (idx < StaticCounterRegistry.count r →
      StaticCounterRegistry.get_name r idx = r.m_names.getD idx none ∧
      StaticCounterRegistry.get_counter r idx
        = some (r.m_instances.getD idx ⟨0⟩)) := by
  have hc : StaticCounterRegistry.count r = r.m_instances.length :=
    Nat.mod_eq_of_lt hsmall
  constructor
  · intro h
    rw [hc] at h
    refine ⟨?_, ?_⟩
    · unfold StaticCounterRegistry.get_name
      rw [if_pos (by omega)]
    · unfold StaticCounterRegistry.get_counter
      rw [if_pos (by omega)]
  · intro h
    rw [hc] at h
    refine ⟨?_, ?_⟩
    · unfold StaticCounterRegistry.get_name
      rw [if_neg (by omega)]
    · unfold StaticCounterRegistry.get_counter
      rw [if_neg (by omega)]

/-- Claim C6 witness: on a one-entry registry, index 5 yields the null
sentinels and index 0 yields the stored name and counter. -/
theorem registry_get_bounds_witness :
    (StaticCounterRegistry.get_name ⟨[some "a"], [⟨7⟩]⟩ 5 = none ∧
      StaticCounterRegistry.get_counter ⟨[some "a"], [⟨7⟩]⟩ 5 = none) ∧
    (StaticCounterRegistry.get_name ⟨[some "a"], [⟨7⟩]⟩ 0 = some "a" ∧
      StaticCounterRegistry.get_counter ⟨[some "a"], [⟨7⟩]⟩ 0 = some ⟨7⟩) := by
  have h5 := registry_get_bounds ⟨[some "a"], [⟨7⟩]⟩ 5 rfl (by decide)
  have h0 := registry_get_bounds ⟨[some "a"], [⟨7⟩]⟩ 0 rfl (by decide)
  exact ⟨h5.1 (by decide), h0.2 (by decide)⟩

/-- Claim C3: on a well-formed registry (parallel vectors of equal length,
no null names, size below the unsigned truncation bound), dump emits exactly
count() lines in registration order, and line i consists of the name returned
by get_name(i), a comma and a single space, the base-10 rendering of the
value of the counter returned by get_counter(i), and a terminating newline. -/
theorem registry_dump_correct (r : StaticCounterRegistry)
    (hwf : r.WellFormed) (hsmall : r.m_instances.length < 2 ^ 32) :
    StaticCounterRegistry.dump r = String.join
      ((List.range r.m_instances.length).map
        (StaticCounterRegistry.dumpLine r)) ∧
    ((List.range r.m_instances.length).map
      (StaticCounterRegistry.dumpLine r)).length
        = StaticCounterRegistry.count r ∧
    ∀ i, i < StaticCounterRegistry.count r →
      ∃ n, StaticCounterRegistry.get_name r i = some n ∧
        ((List.range r.m_instances.length).map
          (StaticCounterRegistry.dumpLine r)).getD i ""
            = n ++ ", "
              ++ toString (((StaticCounterRegistry.get_counter r i).getD
                    ⟨0⟩).value)
              ++ "\n" := by
  have hc : StaticCounterRegistry.count r = r.m_instances.length :=
    Nat.mod_eq_of_lt hsmall
  refine ⟨rfl, ?_, ?_⟩
  · simp [hc]
  · intro i hi
    rw [hc] at hi
    have hin : i < r.m_names.length := by rw [hwf.1]; exact hi
    have hmem : r.m_names.getD i none ∈ r.m_names := by
      rw [List.getD_eq_getElem?_getD, List.getElem?_eq_getElem hin]
      simpa using List.getElem_mem hin
    obtain ⟨n, hn⟩ := Option.ne_none_iff_exists'.mp (hwf.2 _ hmem)
    refine ⟨n, ?_, ?_⟩
    · unfold StaticCounterRegistry.get_name
      rw [if_neg (by omega), hn]
    · have hline : ((List.range r.m_instances.length).map
          (StaticCounterRegistry.dumpLine r)).getD i ""
            = StaticCounterRegistry.dumpLine r i := by
        rw [List.getD_eq_getElem?_getD]
        simp [List.getElem?_map, List.getElem?_range, hi]
      rw [hline]
      unfold StaticCounterRegistry.dumpLine StaticCounterRegistry.get_counter
      rw [hn, if_neg (by omega)]
      simp

/-- Claim C3 witness: a one-entry registry holding counter value 42 under
name a dumps the single line a, 42 with a terminating newline. -/
theorem registry_dump_correct_witness :
    StaticCounterRegistry.dump ⟨[some "a"], [⟨42⟩]⟩
      = String.join ((List.range 1).map
          (StaticCounterRegistry.dumpLine ⟨[some "a"], [⟨42⟩]⟩)) ∧
    ((List.range 1).map
      (StaticCounterRegistry.dumpLine ⟨[some "a"], [⟨42⟩]⟩)).length
        = StaticCounterRegistry.count ⟨[some "a"], [⟨42⟩]⟩ := by
  have h := registry_dump_correct ⟨[some "a"], [⟨42⟩]⟩
    ⟨rfl, by decide⟩ (by decide)
  exact ⟨h.1, h.2.1⟩

/-- Claim C4: for a running Stopwatch, split measures the elapsed time since
the last start or split, adds exactly that duration into the bound Timer, and
returns it; after split the stopwatch is still running with the new interval
starting at the measurement point, while stop performs the same retirement
and leaves the stopwatch idle.  Hypotheses: the stopwatch is running, the
clock is monotone and positive, and neither the elapsed duration nor the
accumulated timer value wraps the 64-bit range. -/
theorem stopwatch_split_stop (ts : TimerWorld) (sw : Stopwatch)
    (now : Nat) (hrun : 0 < sw.m_start) (hmono : sw.m_start ≤ now)
    (hnow : 0 < now) (hwrap : now - sw.m_start < U64_MOD)
    (hacc : (ts sw.m_par).value + (now - sw.m_start) < U64_MOD) :
    (Stopwatch.split ts sw now).2.2 = now - sw.m_start ∧
    ((Stopwatch.split ts sw now).1 sw.m_par).value
      = (ts sw.m_par).value + (now - sw.m_start) ∧
    (Stopwatch.split ts sw now).2.1.m_par = sw.m_par ∧
    (Stopwatch.split ts sw now).2.1.m_start = now ∧
    0 < (Stopwatch.split ts sw now).2.1.m_start ∧
    (Stopwatch.stop ts sw now).2.2 = now - sw.m_start ∧
    ((Stopwatch.stop ts sw now).1 sw.m_par).value
      = (ts sw.m_par).value + (now - sw.m_start) ∧
    (Stopwatch.stop ts sw now).2.1.m_start = 0 := by
  have hval : (Function.update ts sw.m_par
      (⟨((ts sw.m_par).m_value + (now - sw.m_start)) % U64_MOD⟩ : Counter)
        sw.m_par).value
      = (ts sw.m_par).value + (now - sw.m_start) := by
    rw [Function.update_same]
    simp only [Counter.value] at hacc ⊢
    exact Nat.mod_eq_of_lt hacc
  rw [Stopwatch.split_spec ts sw now hmono hwrap,
    Stopwatch.stop_spec ts sw now hmono hwrap]
  exact ⟨rfl, hval, rfl, rfl, hnow, rfl, hval, rfl⟩

/-- Claim C4 witness: a stopwatch over timer 0 holding 100, started at clock
reading 5 and split or stopped at clock reading 12, measures 7 and retires it. -/
theorem stopwatch_split_stop_witness :
    (Stopwatch.split (fun _ => ⟨100⟩) ⟨0, 5⟩ 12).2.2 = 7 ∧
    ((Stopwatch.split (fun _ => ⟨100⟩) ⟨0, 5⟩ 12).1 0).value = 107 ∧
    (Stopwatch.split (fun _ => ⟨100⟩) ⟨0, 5⟩ 12).2.1.m_par = 0 ∧
    (Stopwatch.split (fun _ => ⟨100⟩) ⟨0, 5⟩ 12).2.1.m_start = 12 ∧
    0 < (Stopwatch.split (fun _ => ⟨100⟩) ⟨0, 5⟩ 12).2.1.m_start ∧
    (Stopwatch.stop (fun _ => ⟨100⟩) ⟨0, 5⟩ 12).2.2 = 7 ∧
    ((Stopwatch.stop (fun _ => ⟨100⟩) ⟨0, 5⟩ 12).1 0).value = 107 ∧
    (Stopwatch.stop (fun _ => ⟨100⟩) ⟨0, 5⟩ 12).2.1.m_start = 0 := by
  have h := stopwatch_split_stop (fun _ => ⟨100⟩) ⟨0, 5⟩ 12 (by decide)
    (by decide) (by decide) (by decide) (by decide)
  exact h

/-- Claim C9: a Scopewatch bound to a Timer starts on construction and
retires on destruction exactly once: the value of the bound timer increases
between construction (clock reading t0) and destruction (clock reading t1) by
exactly t1 - t0, hence by at least the wall-clock interval between the two
events, absent 64-bit wrap-around.  (The guaranteed-once retirement on every
exit path is the C++ destructor guarantee; the model runs the destructor
exactly once at scope exit.) -/
theorem scopewatch_retires_interval (ts : TimerWorld) (par : Nat)
    (t0 t1 : Nat) (h0 : 0 < t0) (h01 : t0 ≤ t1)
    (hwrap : t1 - t0 < U64_MOD)
    (hacc : (ts par).value + (t1 - t0) < U64_MOD) :
    (ts par).value + (t1 - t0) ≤ ((Scopewatch.lifetime ts par t0 t1) par).value ∧
    ((Scopewatch.lifetime ts par t0 t1) par).value
      = (ts par).value + (t1 - t0) := by
  have hupd : (Function.update ts par
      (⟨((ts par).m_value + (t1 - t0)) % U64_MOD⟩ : Counter) par).value
      = (ts par).value + (t1 - t0) := by
    rw [Function.update_same]
    simp only [Counter.value] at hacc ⊢
    exact Nat.mod_eq_of_lt hacc
  have heq : ((Scopewatch.lifetime ts par t0 t1) par).value
      = (ts par).value + (t1 - t0) := by
    unfold Scopewatch.lifetime Scopewatch.destruct
    rw [show Scopewatch.construct par t0 = (⟨par, t0⟩ : Stopwatch) from rfl,
      Stopwatch.stop_spec ts ⟨par, t0⟩ t1 h01 hwrap]
    exact hupd
  exact ⟨le_of_eq heq.symm, heq⟩

/-- Claim C9 witness: a Scopewatch over timer 0 holding 10, constructed at
clock reading 2 and destroyed at clock reading 9, adds exactly 7. -/
theorem scopewatch_retires_interval_witness :
    (10 : Nat) + 7 ≤ ((Scopewatch.lifetime (fun _ => ⟨10⟩) 0 2 9) 0).value ∧
    ((Scopewatch.lifetime (fun _ => ⟨10⟩) 0 2 9) 0).value = 17 := by
  have h := scopewatch_retires_interval (fun _ => ⟨10⟩) 0 2 9 (by decide)
    (by decide) (by decide) (by decide)
  exact h

/-- Claim C10: Stopwatch copy assignment does not rebind the Timer reference
of the destination: it writes the value of the source stopwatch timer through
the destination timer reference (so the destination timer now holds the
source timer value, its previously accumulated value overwritten, possibly
decreased), keeps the destination bound to the same timer, and copies the
m_start time point. -/
theorem stopwatch_assign_writes_through (ts : TimerWorld) (a b : Stopwatch) :
    (Stopwatch.copyAssign ts a b).2.m_par = a.m_par ∧
    ((Stopwatch.copyAssign ts a b).1 a.m_par).value = (ts b.m_par).value ∧
    (Stopwatch.copyAssign ts a b).2.m_start = b.m_start := by
  refine ⟨rfl, ?_, rfl⟩
  show (Function.update ts a.m_par
      (Counter.copyAssign (ts a.m_par) (ts b.m_par)) a.m_par).value
    = (ts b.m_par).value
  rw [Function.update_same]
  rfl

end Minprof
